import Mathlib

/-!
Shallow embedding of the dbanalyzer scraping/aggregation core
(the douban service module: parseYear, parseRating, fetchCategory,
parseMovie, parseBook, parseMusic, computeStats, fetchDoubanData).

Conventions of the embedding:
- JavaScript strings are Lean String; regular expressions are modelled by
  explicit left-to-right scanners over the character list, matching the
  exact patterns used in the source.
- DOM fragments are modelled by a structure holding the descendant element
  list in document order (used for the class-attribute selectors that the
  rating extractor builds itself) together with the results of the fixed
  CSS selector queries the field extractors issue; the CSS engine of the
  cheerio library is an external collaborator, so its query results are
  inputs of the model, while every string manipulation and scan performed
  by the source itself is embedded faithfully.
- Asynchronous fetching is modelled by an environment function from the
  page counter to an optional page document; a missing page is a fetch
  failure. The inter-page delay has no observable effect in the model.
- Machine numbers here are small natural numbers (digit parses, counts),
  so Nat is used throughout.
-/

namespace DBAnalyzer

/-! ## Character and string scanning utilities -/

/-- Numeric value of a decimal digit character. -/
def digitVal (c : Char) : Nat := c.toNat - 48

/-- Test whether the first list is a leading piece of the second. -/
def startsWithList : List Char → List Char → Bool
  | [], _ => true
  | _ :: _, [] => false
  | a :: ps, b :: ss => a == b && startsWithList ps ss

/-- Test whether the first list occurs contiguously inside the second. -/
def containsList (p : List Char) : List Char → Bool
  | [] => startsWithList p []
  | b :: ss => startsWithList p (b :: ss) || containsList p ss

/-- Substring test on strings, mirroring the semantics of the CSS
attribute substring selector and of a fixed-alternative regular
expression test. -/
def containsSub (pat s : String) : Bool := containsList pat.data s.data

/-- Longest leading run of decimal digits. -/
def takeDigits : List Char → List Char
  | [] => []
  | c :: rest => if c.isDigit then c :: takeDigits rest else []

/-- Remainder after the longest leading run of decimal digits. -/
def dropDigits : List Char → List Char
  | [] => []
  | c :: rest => if c.isDigit then dropDigits rest else c :: rest

/-- Decimal value of a digit list, most significant first. -/
def digitsToNat (ds : List Char) : Nat :=
  ds.foldl (fun acc c => acc * 10 + digitVal c) 0

/-! ## The rating regular expressions

The source tests, on a class attribute string, first the pattern
rating(\d)-t and then the pattern allstar(\d+), each with the usual
leftmost-match regex semantics. -/

/-- Match of the pattern rating(\d)-t anchored at the head of the list. -/
def ratingNtAt (cs : List Char) : Option Nat :=
  match cs with
  | 'r' :: 'a' :: 't' :: 'i' :: 'n' :: 'g' :: d :: '-' :: 't' :: _ =>
      if d.isDigit then some (digitVal d) else none
  | _ => none

/-- Leftmost match of rating(\d)-t: the captured digit. -/
def matchRatingNt : List Char → Option Nat
  | [] => none
  | c :: rest =>
      match ratingNtAt (c :: rest) with
      | some n => some n
      | none => matchRatingNt rest

/-- Match of the pattern allstar(\d+) anchored at the head of the list:
the captured digit run, read as a number. -/
def allstarAt (cs : List Char) : Option Nat :=
  match cs with
  | 'a' :: 'l' :: 'l' :: 's' :: 't' :: 'a' :: 'r' :: rest =>
      let ds := takeDigits rest
      if ds.isEmpty then none else some (digitsToNat ds)
  | _ => none

/-- Leftmost match of allstar(\d+): the captured number. -/
def matchAllstar : List Char → Option Nat
  | [] => none
  | c :: rest =>
      match allstarAt (c :: rest) with
      | some n => some n
      | none => matchAllstar rest

/-! ## The year regular expression

The source runs text.match with the pattern (\d{4}): the leftmost
position at which four consecutive digit characters occur, with no
boundary conditions around the window. -/

/-- Match of four consecutive digits anchored at the head of the list. -/
def win4 (cs : List Char) : Option (Char × Char × Char × Char) :=
  match cs with
  | a :: b :: c :: d :: _ =>
      if a.isDigit && b.isDigit && c.isDigit && d.isDigit then
        some (a, b, c, d)
      else none
  | _ => none

/-- Leftmost window of four consecutive digits. -/
def firstWindow4 : List Char → Option (Char × Char × Char × Char)
  | [] => none
  | c :: rest =>
      match win4 (c :: rest) with
      | some w => some w
      | none => firstWindow4 rest

/-- Value of a four-digit window. -/
def win4Val (w : Char × Char × Char × Char) : Nat :=
  1000 * digitVal w.1 + 100 * digitVal w.2.1 + 10 * digitVal w.2.2.1 +
    digitVal w.2.2.2

/-- The parseYear function of the source: leftmost four consecutive
digits of the text, read as a number, none when no such window exists. -/
def parseYear (s : String) : Option Nat :=
  (firstWindow4 s.data).map win4Val

/-! ## The total-count regular expression

The source runs titleText.match with the pattern \((\d+)\): a left
parenthesis, a nonempty digit run, a right parenthesis; the digit run is
greedy, so the character after the captured run must be the closing
parenthesis. -/

/-- Match of the parenthesized integer pattern anchored at the head. -/
def parenIntAt (cs : List Char) : Option Nat :=
  match cs with
  | '(' :: rest =>
      let ds := takeDigits rest
      if ds.isEmpty then none
      else
        match dropDigits rest with
        | ')' :: _ => some (digitsToNat ds)
        | _ => none
  | _ => none

/-- Leftmost match of the parenthesized integer pattern. -/
def findParenInt : List Char → Option Nat
  | [] => none
  | c :: rest =>
      match parenIntAt (c :: rest) with
      | some n => some n
      | none => findParenInt rest

/-! ## DOM fragment model -/

/-- One descendant element of a listing fragment: its tag name and its
class attribute (none when the attribute is absent). -/
structure Elem where
  tag : String
  className : Option String
deriving DecidableEq, Repr

/-- An anchor as seen by a title selector query: its text content and
its href attribute. -/
structure Anchor where
  text : String
  href : Option String
deriving DecidableEq, Repr

/-- A listing fragment. The descendant list is in document order and
drives the class-substring selector of the rating extractor and the span
fallback. The remaining fields are the document-order results of the
fixed CSS selector queries issued by the field extractors, one field per
distinct selector string in the source; the CSS engine is an external
collaborator, so these are model inputs. -/
structure Fragment where
  descendants : List Elem
  titleSelMovie : List Anchor
  titleSelBook : List Anchor
  introSelMovie : List String
  pubSelBook : List String
  introSelMusic : List String
  picImgSrc : Option String
deriving DecidableEq, Repr

/-- Text of the first element of a selector result, empty when the
selection is empty, mirroring first().text() on a cheerio selection. -/
def firstText (xs : List Anchor) : String :=
  match xs with
  | [] => ""
  | a :: _ => a.text

/-- The href attribute of the first element of a selector result,
mirroring first().attr() on a cheerio selection. -/
def firstHref (xs : List Anchor) : Option String :=
  match xs with
  | [] => none
  | a :: _ => a.href

/-- Text of the first element of a text selector result. -/
def firstTextS (xs : List String) : String :=
  match xs with
  | [] => ""
  | t :: _ => t

/-! ## Rating extractor -/

/-- Body shared by both scanning loops of parseRating: on each class
string, first try rating(\d)-t, then allstar(\d+) with its captured
number divided by ten, rounding down; the first class string giving a
match decides. -/
def ratingLoop : List String → Option Nat
  | [] => none
  | c :: rest =>
      match matchRatingNt c.data with
      | some n => some n
      | none =>
          match matchAllstar c.data with
          | some m => some (m / 10)
          | none => ratingLoop rest

/-- Class strings of the candidate elements found by the selector
that requires the class attribute to contain rating or allstar as a
substring; a candidate always has a class attribute, and the source
additionally defaults a missing attribute to the empty string. -/
def candClasses (f : Fragment) : List String :=
  (f.descendants.filter fun e =>
      match e.className with
      | some c => containsSub "rating" c || containsSub "allstar" c
      | none => false).map
    fun e => e.className.getD ""

/-- Class strings of the span descendants that carry a class attribute,
as scanned by the fallback loop of parseRating. -/
def spanClasses (f : Fragment) : List String :=
  (f.descendants.filter fun e => e.tag == "span").filterMap
    fun e => e.className

/-- The parseRating function of the source: scan the candidate elements
in document order with the two rating patterns; if none matches, scan
all span descendants the same way; otherwise zero for no rating. -/
def parseRating (f : Fragment) : Nat :=
  match ratingLoop (candClasses f) with
  | some n => n
  | none =>
      match ratingLoop (spanClasses f) with
      | some n => n
      | none => 0

/-! ## Field extractors and classifier -/

/-- Item categories as tagged by the parse functions. -/
inductive ItemType where
  | movie
  | tv
  | book
  | music
deriving DecidableEq, Repr

/-- One parsed collection item. -/
structure Item where
  title : String
  url : Option String
  year : Option Nat
  cover : Option String
  rating : Nat
  type : ItemType
deriving DecidableEq, Repr

/-- Whitespace trim on a character list, modelling the trim method on
JavaScript strings. -/
def trimList (cs : List Char) : List Char :=
  ((cs.dropWhile Char.isWhitespace).reverse.dropWhile Char.isWhitespace).reverse

/-- String-level trim over the character list representation. -/
def trimS (s : String) : String := String.mk (trimList s.data)

/-- Text before the first slash, modelling taking the head of a split
on the slash character. -/
def beforeSlash (cs : List Char) : List Char :=
  cs.takeWhile fun c => c != '/'

/-- Title normalization of the source: trim, take the text before the
first slash delimiter, trim again. -/
def normTitle (s : String) : String :=
  String.mk (trimList (beforeSlash (trimList s.data)))

/-- The episodic-content keyword test of the source, the regex
alternative of Season, the season character and the episode character. -/
def kwTest (s : String) : Bool :=
  containsSub "Season" s || containsSub "季" s || containsSub "集" s

/-- Context text used by parseMovie: trimmed text of the first match of
the intro selector pair. -/
def movieIntroText (f : Fragment) : String :=
  trimS (firstTextS f.introSelMovie)

/-- The parseMovie function of the source. -/
def parseMovie (f : Fragment) : Item :=
  let title := normTitle (firstText f.titleSelMovie)
  let url := firstHref f.titleSelMovie
  let intro := movieIntroText f
  let year := parseYear intro
  let cover := f.picImgSrc
  let rating := parseRating f
  let isTV := kwTest title || kwTest intro
  { title := title, url := url, year := year, cover := cover,
    rating := rating, type := if isTV then ItemType.tv else ItemType.movie }

/-- The parseBook function of the source. -/
def parseBook (f : Fragment) : Item :=
  let title := normTitle (firstText f.titleSelBook)
  let url := firstHref f.titleSelBook
  let pub := trimS (firstTextS f.pubSelBook)
  let year := parseYear pub
  let cover := f.picImgSrc
  let rating := parseRating f
  { title := title, url := url, year := year, cover := cover,
    rating := rating, type := ItemType.book }

/-- The parseMusic function of the source. -/
def parseMusic (f : Fragment) : Item :=
  let title := normTitle (firstText f.titleSelBook)
  let url := firstHref f.titleSelBook
  let intro := trimS (firstTextS f.introSelMusic)
  let year := parseYear intro
  let cover := f.picImgSrc
  let rating := parseRating f
  { title := title, url := url, year := year, cover := cover,
    rating := rating, type := ItemType.music }

/-- The parse functions are handed to the paginator behind a truthiness
check; a JavaScript object is always truthy, so each wrapped parse
function always yields an item. -/
def parseMovieFn (f : Fragment) : Option Item := some (parseMovie f)

/-- Wrapped parseBook, as consumed by the paginator. -/
def parseBookFn (f : Fragment) : Option Item := some (parseBook f)

/-- Wrapped parseMusic, as consumed by the paginator. -/
def parseMusicFn (f : Fragment) : Option Item := some (parseMusic f)

/-! ## Aggregator: computeStats -/

/-- The rating distribution object of the source, with one bucket per
key zero to five. -/
structure Dist where
  d0 : Nat
  d1 : Nat
  d2 : Nat
  d3 : Nat
  d4 : Nat
  d5 : Nat
deriving DecidableEq, Repr

/-- The all-zero distribution the fold starts from. -/
def distZero : Dist := ⟨0, 0, 0, 0, 0, 0⟩

/-- One fold step of computeStats: bump the bucket keyed by the rating
when such a bucket exists, otherwise bump bucket zero. -/
def bumpDist (d : Dist) (r : Nat) : Dist :=
  match r with
  | 0 => { d with d0 := d.d0 + 1 }
  | 1 => { d with d1 := d.d1 + 1 }
  | 2 => { d with d2 := d.d2 + 1 }
  | 3 => { d with d3 := d.d3 + 1 }
  | 4 => { d with d4 := d.d4 + 1 }
  | 5 => { d with d5 := d.d5 + 1 }
  | _ => { d with d0 := d.d0 + 1 }

/-- Sum of all distribution buckets. -/
def sumDist (d : Dist) : Nat := d.d0 + d.d1 + d.d2 + d.d3 + d.d4 + d.d5

/-- The lightweight item view kept in the recent slice. -/
structure RecentView where
  title : String
  url : Option String
  cover : Option String
  rating : Nat
deriving DecidableEq, Repr

/-- The category summary built by computeStats. -/
structure Summary where
  total : Nat
  distribution : Dist
  recent : List RecentView
deriving DecidableEq, Repr

/-- The computeStats function of the source. The total is the given
count when it is nonzero, else the item count, mirroring the JavaScript
or-else on a nonnegative number. -/
def computeStats (items : List Item) (totalCount : Nat) : Summary :=
  let distribution := items.foldl (fun d i => bumpDist d i.rating) distZero
  let recent := (items.take 10).map fun i =>
    RecentView.mk i.title i.url i.cover i.rating
  { total := if totalCount = 0 then items.length else totalCount,
    distribution := distribution, recent := recent }

/-! ## Paginator: fetchCategory -/

/-- One fetched listing page, as far as the loop inspects it: the title
text of the document, the fragments found by the listing selector, and
whether the next-page affordance is present. -/
structure PageDoc where
  titleText : String
  listItems : List Fragment
  hasNext : Bool

/-- Observable events of one paginator run, used to state the progress
callback and ordering properties. The page argument is the one-based
page number. -/
inductive Event where
  | progress (category : String) (page : Nat)
  | fetchPage (page : Nat) (ok : Bool)
  | parsedPage (page : Nat)
deriving DecidableEq, Repr

/-- Result of one paginator run, instrumented with the event trace and
the number of fetch attempts. -/
structure CatOut where
  items : List Item
  totalCount : Nat
  trace : List Event
  nFetch : Nat

/-- Total-count update of one iteration: on the first page, parse the
parenthesized integer out of the title text and keep the old value when
the pattern is absent; on later pages leave the value unchanged. -/
def tcStep (pc tc : Nat) (page : PageDoc) : Nat :=
  if pc = 0 then
    match findParenInt page.titleText.data with
    | some t => t
    | none => tc
  else tc

/-- The while loop of fetchCategory. The environment maps the page
counter to the fetched document, none being a fetch failure; the URL
offset is fifteen times the page counter, so indexing by the counter is
equivalent. The fuel argument is the remaining page budget, twenty minus
the page counter, which makes the loop condition pageCount below the
page cap hold exactly when fuel is positive. Each iteration first fires
the progress callback, then fetches; on the first page it parses the
parenthesized total from the title; it stops on fetch failure, on an
empty listing, and on a missing next affordance, and otherwise continues
with the page counter advanced. -/
def fetchLoop (env : Nat → Option PageDoc) (parse : Fragment → Option Item)
    (category : String) :
    Nat → Nat → List Item → Nat → List Event → Nat → CatOut
  | 0, _, items, tc, trace, nF => ⟨items, tc, trace, nF⟩
  | fuel + 1, pc, items, tc, trace, nF =>
      let trace1 := trace ++ [Event.progress category (pc + 1)]
      match env pc with
      | none => ⟨items, tc, trace1 ++ [Event.fetchPage (pc + 1) false], nF + 1⟩
      | some page =>
          let trace2 := trace1 ++ [Event.fetchPage (pc + 1) true]
          let tc1 := tcStep pc tc page
          if page.listItems.isEmpty then ⟨items, tc1, trace2, nF + 1⟩
          else
            let items1 := items ++ page.listItems.filterMap parse
            let trace3 := trace2 ++ [Event.parsedPage (pc + 1)]
            if page.hasNext then
              fetchLoop env parse category fuel (pc + 1) items1 tc1 trace3 (nF + 1)
            else ⟨items1, tc1, trace3, nF + 1⟩

/-- The fetchCategory function of the source: run the loop with the page
cap of twenty, then fall back to the fetched item count when the total
count is still zero. -/
def fetchCategoryModel (env : Nat → Option PageDoc)
    (parse : Fragment → Option Item) (category : String) : CatOut :=
  let r := fetchLoop env parse category 20 0 [] 0 [] 0
  { r with totalCount := if r.totalCount = 0 then r.items.length else r.totalCount }

/-- Items contributed by one fetched page: none on fetch failure, the
parse results of its fragments otherwise. -/
def pageItems (env : Nat → Option PageDoc) (parse : Fragment → Option Item)
    (pc : Nat) : List Item :=
  match env pc with
  | none => []
  | some page => page.listItems.filterMap parse

/-- Items contributed by a run of consecutive pages starting at the
given page counter. -/
def pagesItems (env : Nat → Option PageDoc) (parse : Fragment → Option Item) :
    Nat → Nat → List Item
  | _, 0 => []
  | pc, m + 1 => pageItems env parse pc ++ pagesItems env parse (pc + 1) m

/-- One-based page numbers of a run of consecutive pages starting at the
given page counter. -/
def pagesFrom : Nat → Nat → List Nat
  | _, 0 => []
  | pc, m + 1 => (pc + 1) :: pagesFrom (pc + 1) m

/-- Page numbers of the progress events of a trace, in order. -/
def progressPages (t : List Event) : List Nat :=
  t.filterMap fun e =>
    match e with
    | Event.progress _ p => some p
    | _ => none

/-- Page numbers of the fetch events of a trace, in order. -/
def fetchPagesNums (t : List Event) : List Nat :=
  t.filterMap fun e =>
    match e with
    | Event.fetchPage p _ => some p
    | _ => none

/-! ## Orchestrator: year aggregation and summaries -/

/-- One entry of the year map: a year key and, per category, the sum of
ratings accumulated for that year. The source keys the map by the
decimal string of the year and sorts by its integer value; natural
number keys model this bijectively. -/
structure YearEntry where
  year : Nat
  movie : Nat
  tv : Nat
  book : Nat
  music : Nat
deriving DecidableEq, Repr

/-- Add a rating into the field of a year entry selected by category. -/
def addToEntry (e : YearEntry) (t : ItemType) (r : Nat) : YearEntry :=
  match t with
  | ItemType.movie => { e with movie := e.movie + r }
  | ItemType.tv => { e with tv := e.tv + r }
  | ItemType.book => { e with book := e.book + r }
  | ItemType.music => { e with music := e.music + r }

/-- Update the entry bearing the given year key; keys are unique by
construction of the map, so at most the first occurrence is touched. -/
def updateFirst : List YearEntry → Nat → ItemType → Nat → List YearEntry
  | [], _, _, _ => []
  | e :: rest, y, t, r =>
      if e.year = y then addToEntry e t r :: rest
      else e :: updateFirst rest y t r

/-- The map get-or-create step of the source: mutate the existing entry
for the year, or append a fresh zero entry and mutate it. -/
def updateMap (m : List YearEntry) (y : Nat) (t : ItemType) (r : Nat) :
    List YearEntry :=
  if m.any fun e => e.year = y then updateFirst m y t r
  else m ++ [addToEntry (YearEntry.mk y 0 0 0 0) t r]

/-- The processItem closure of the source: skip when the year is falsy,
which in JavaScript covers both the missing year and the year zero, or
when the rating is below four; otherwise add the rating into the entry
for the year and category. -/
def processItem (m : List YearEntry) (t : ItemType) (i : Item) :
    List YearEntry :=
  match i.year with
  | none => m
  | some 0 => m
  | some y => if i.rating < 4 then m else updateMap m y t i.rating

/-- Ascending sort of the year entries by numeric year, modelling the
comparator that subtracts the parsed year values. -/
def sortByYear (m : List YearEntry) : List YearEntry :=
  List.insertionSort (fun a b => a.year ≤ b.year) m

/-- A category result as consumed by the orchestrator. -/
structure CatRes where
  items : List Item
  totalCount : Nat
deriving DecidableEq, Repr

/-- The final report assembled by fetchDoubanData, without the user
profile, which no claim concerns. -/
structure ReportModel where
  yearData : List YearEntry
  movieS : Summary
  tvS : Summary
  bookS : Summary
  musicS : Summary
  allItems : List Item
deriving DecidableEq, Repr

/-- Movie items of the combined movie category result. -/
def moviesOf (mtv : CatRes) : List Item :=
  mtv.items.filter fun i => i.type == ItemType.movie

/-- Serial items of the combined movie category result. -/
def tvsOf (mtv : CatRes) : List Item :=
  mtv.items.filter fun i => i.type == ItemType.tv

/-- The aggregation part of fetchDoubanData: split the combined movie
category by classifier tag, compute summaries with fetched counts for
the split and with the category total for books and music, fold the
year map over the four item lists in source order, sort it, and collect
the high-rated items. -/
def fetchDoubanDataModel (mtv bk mu : CatRes) : ReportModel :=
  let movies := moviesOf mtv
  let tvs := tvsOf mtv
  let movieStats := computeStats movies movies.length
  let tvStats := computeStats tvs tvs.length
  let bookStats := computeStats bk.items bk.totalCount
  let musicStats := computeStats mu.items mu.totalCount
  let m1 := movies.foldl (fun m i => processItem m ItemType.movie i) []
  let m2 := tvs.foldl (fun m i => processItem m ItemType.tv i) m1
  let m3 := bk.items.foldl (fun m i => processItem m ItemType.book i) m2
  let m4 := mu.items.foldl (fun m i => processItem m ItemType.music i) m3
  let yearData := sortByYear m4
  let allItems := (movies ++ tvs ++ bk.items ++ mu.items).filter
    fun i => 4 ≤ i.rating
  { yearData := yearData, movieS := movieStats, tvS := tvStats,
    bookS := bookStats, musicS := musicStats, allItems := allItems }

/-- The year entry field belonging to a category. -/
def entryProj (t : ItemType) (e : YearEntry) : Nat :=
  match t with
  | ItemType.movie => e.movie
  | ItemType.tv => e.tv
  | ItemType.book => e.book
  | ItemType.music => e.music

/-- Sum of one year entry field over a list, selected by category. -/
def entrySum (t : ItemType) (m : List YearEntry) : Nat :=
  (m.map (entryProj t)).sum

/-- Qualification test implemented by the source condition: a truthy,
hence nonzero, resolved year and a rating of at least four. -/
def qualifies (i : Item) : Bool :=
  (match i.year with
   | some (_ + 1) => true
   | _ => false) && 4 ≤ i.rating

/-- Sum of ratings of the qualifying items of a list. -/
def qualSum (l : List Item) : Nat :=
  ((l.filter qualifies).map fun i => i.rating).sum

/-! ## Spec-side definitions and concrete instances used by the
theorems below -/

/-- Value scanned by one loop step of parseRating on a single class
string: first the rating pattern, then the allstar pattern with its
number divided by ten. -/
def markerValue (c : String) : Option Nat :=
  match matchRatingNt c.data with
  | some n => some n
  | none => (matchAllstar c.data).map fun m => m / 10

/-- Helper for the maximal-run reading of the year claim: walking the
characters with the length of the current digit run, does some maximal
digit run have length exactly four. -/
def maxRunsHas4 : List Char → Nat → Bool
  | [], run => run == 4
  | c :: rest, run =>
      if c.isDigit then maxRunsHas4 rest (run + 1)
      else (run == 4) || maxRunsHas4 rest 0

/-- Modelled from the claim wording, not from the source: the claim
reads the year extractor as looking for a maximal digit run of length
exactly four; this tests whether such a run exists. -/
def hasMaxFourRun (s : String) : Bool := maxRunsHas4 s.data 0

/-- A fragment with no descendants and no selector matches at all; in
particular no title selector matches on it. -/
def nfrag : Fragment :=
  { descendants := [], titleSelMovie := [], titleSelBook := [],
    introSelMovie := [], pubSelBook := [], introSelMusic := [],
    picImgSrc := none }

/-- Shorthand for a fragment whose only relevant content is a list of
descendant elements. -/
def fragOf (ds : List Elem) : Fragment :=
  { descendants := ds, titleSelMovie := [], titleSelBook := [],
    introSelMovie := [], pubSelBook := [], introSelMusic := [],
    picImgSrc := none }

/-- Fragment carrying an allstar marker before a rating marker, in
document order. -/
def cexRatingFrag : Fragment :=
  fragOf [Elem.mk "span" (some "allstar20"), Elem.mk "span" (some "rating4-t")]

/-- Fragment carrying a single rating marker. -/
def wRatingFrag : Fragment := fragOf [Elem.mk "span" (some "rating4-t")]

/-- Fragment carrying an allstar marker with a number above the origin
range. -/
def frag60 : Fragment := fragOf [Elem.mk "span" (some "allstar60")]

/-- Fragment carrying an origin-range allstar marker. -/
def wFrag40 : Fragment := fragOf [Elem.mk "span" (some "allstar40")]

/-- Environment with exactly one page, with no next affordance, whose
single listing fragment has no resolvable title. -/
def env4 : Nat → Option PageDoc := fun n =>
  if n = 0 then some (PageDoc.mk "" [nfrag] false) else none

/-- Environment with one final page whose title carries a parenthesized
count. -/
def envW37 : Nat → Option PageDoc := fun n =>
  if n = 0 then some (PageDoc.mk "x (37)" [nfrag] false) else none

/-- A movie item with a resolved year of zero and a five-star rating. -/
def yearZeroItem : Item :=
  { title := "x", url := none, year := some 0, cover := none, rating := 5,
    type := ItemType.movie }

/-- Combined movie category result containing only the year-zero item. -/
def cexMtv : CatRes := CatRes.mk [yearZeroItem] 1

/-- An empty category result. -/
def emptyCat : CatRes := CatRes.mk [] 0

/-! ## Helper lemmas -/

theorem sumDist_bump (d : Dist) (r : Nat) :
    sumDist (bumpDist d r) = sumDist d + 1 := by
  rcases r with _ | _ | _ | _ | _ | _ | n <;> simp [bumpDist, sumDist] <;> omega

theorem d0_bump (d : Dist) (r : Nat) :
    (bumpDist d r).d0 = d.d0 + (if r = 0 || decide (5 < r) then 1 else 0) := by
  rcases r with _ | _ | _ | _ | _ | _ | n <;> simp [bumpDist]

theorem sumDist_foldl (items : List Item) (d : Dist) :
    sumDist (items.foldl (fun d i => bumpDist d i.rating) d) =
      sumDist d + items.length := by
  induction items generalizing d with
  | nil => simp
  | cons i rest ih =>
      simp only [List.foldl_cons, ih, sumDist_bump, List.length_cons]
      omega

theorem d0_foldl (items : List Item) (d : Dist) :
    (items.foldl (fun d i => bumpDist d i.rating) d).d0 =
      d.d0 + (items.filter fun i => i.rating == 0 || decide (5 < i.rating)).length := by
  induction items generalizing d with
  | nil => simp
  | cons i rest ih =>
      simp only [List.foldl_cons, ih, d0_bump, List.filter_cons]
      rcases h : (i.rating == 0 || decide (5 < i.rating)) with _ | _
      · simp [h]
      · simp [h]
        omega

/-! ## Claim theorems -/

/-- C2: for every list of items and every total count, the distribution
built by computeStats has bucket counts over keys zero to five summing
to the item count, items whose rating is not a bucket key are folded
into bucket zero, and the total field is the given count when positive,
else the item count. -/
theorem computeStats_spec (items : List Item) (totalCount : Nat) :
    sumDist (computeStats items totalCount).distribution = items.length ∧
    (computeStats items totalCount).distribution.d0 =
      (items.filter fun i => i.rating == 0 || decide (5 < i.rating)).length ∧
    (computeStats items totalCount).total =
      if 0 < totalCount then totalCount else items.length := by
  refine ⟨?_, ?_, ?_⟩
  · simpa [computeStats, distZero, sumDist] using sumDist_foldl items distZero
  · simpa [computeStats, distZero] using d0_foldl items distZero
  · simp only [computeStats]
    rcases Nat.eq_zero_or_pos totalCount with h | h
    · simp [h]
    · simp [h, Nat.pos_iff_ne_zero.mp h]

/-- C8: an item parsed from the movie listing category is classified as
serial exactly when its title or its context text contains a keyword of
the fixed episodic-content keyword set, and otherwise is a movie; items
parsed by the book and music parse functions always keep the book and
music types. -/
theorem classifier_spec (f : Fragment) :
    ((parseMovie f).type = ItemType.tv ↔
      (kwTest (parseMovie f).title = true ∨ kwTest (movieIntroText f) = true)) ∧
    ((parseMovie f).type ≠ ItemType.tv → (parseMovie f).type = ItemType.movie) ∧
    (parseBook f).type = ItemType.book ∧
    (parseMusic f).type = ItemType.music := by
  refine ⟨?_, ?_, rfl, rfl⟩
  · cases h1 : kwTest (normTitle (firstText f.titleSelMovie)) <;>
      cases h2 : kwTest (movieIntroText f) <;>
        simp [parseMovie, h1, h2]
  · cases h1 : kwTest (normTitle (firstText f.titleSelMovie)) <;>
      cases h2 : kwTest (movieIntroText f) <;>
        simp [parseMovie, h1, h2]

/-- C8 witness: a fragment without episodic keywords is classified as
a movie by the classifier theorem. -/
theorem classifier_spec_w : (parseMovie nfrag).type = ItemType.movie :=
  (classifier_spec nfrag).2.1 (by decide)

theorem ratingLoop_eq_findSome (l : List String) :
    ratingLoop l = List.findSome? markerValue l := by
  induction l with
  | nil => rfl
  | cons c rest ih =>
      simp only [ratingLoop, List.findSome?_cons]
      cases h1 : matchRatingNt c.data with
      | some n => simp [markerValue, h1]
      | none =>
          cases h2 : matchAllstar c.data with
          | some m => simp [markerValue, h1, h2]
          | none => simp [markerValue, h1, h2, ih]

theorem ratingLoop_some (l : List String) (v : Nat) (h : ratingLoop l = some v) :
    ∃ c ∈ l, markerValue c = some v := by
  rw [ratingLoop_eq_findSome] at h
  exact List.exists_of_findSome?_eq_some h

/-- C6 counterexample: a fragment whose only marker is allstar60 makes
the rating extractor return six, outside the claimed zero-to-five
range. -/
theorem parseRating_range_cex : ¬ (parseRating frag60 ≤ 5) := by decide

/-- C6 amended: the rating extractor returns a natural number, and it
is at most five for every fragment whose markers stay in the origin
range, that is every rating pattern digit is at most five and every
allstar pattern number is at most fifty; arbitrary class strings can
drive the result above five. -/
theorem parseRating_le_five (f : Fragment)
    (h : ∀ c ∈ candClasses f ++ spanClasses f,
      (∀ n, matchRatingNt c.data = some n → n ≤ 5) ∧
      (∀ m, matchAllstar c.data = some m → m ≤ 50)) :
    parseRating f ≤ 5 := by
  have bound : ∀ c ∈ candClasses f ++ spanClasses f, ∀ v,
      markerValue c = some v → v ≤ 5 := by
    intro c hc v hm
    rcases h c hc with ⟨hr, ha⟩
    simp only [markerValue] at hm
    rcases h1 : matchRatingNt c.data with _ | n
    · rw [h1] at hm
      rcases h2 : matchAllstar c.data with _ | m
      · rw [h2] at hm; cases hm
      · rw [h2] at hm
        simp only [Option.map_some'] at hm
        cases hm
        have := ha m h2
        omega
    · rw [h1] at hm
      cases hm
      exact hr _ h1
  unfold parseRating
  rcases hc : ratingLoop (candClasses f) with _ | v
  · rcases hs : ratingLoop (spanClasses f) with _ | v
    · simp
    · rcases ratingLoop_some _ _ hs with ⟨c, hmem, hm⟩
      exact bound c (List.mem_append_right _ hmem) v hm
  · rcases ratingLoop_some _ _ hc with ⟨c, hmem, hm⟩
    exact bound c (List.mem_append_left _ hmem) v hm

/-- C6 witness: a fragment with an origin-range marker satisfies the
hypotheses of the amended range theorem and gets a rating of at most
five. -/
theorem parseRating_le_five_w : parseRating wFrag40 ≤ 5 := by
  apply parseRating_le_five
  intro c hc
  have he : candClasses wFrag40 ++ spanClasses wFrag40 = ["allstar40", "allstar40"] := by
    decide
  rw [he] at hc
  have hc2 : c = "allstar40" := by
    rcases List.mem_cons.mp hc with h | h
    · exact h
    · simpa using h
  subst hc2
  constructor
  · intro n hn
    have h0 : matchRatingNt ("allstar40").data = none := by decide
    rw [h0] at hn
    cases hn
  · intro m hm
    have h0 : matchAllstar ("allstar40").data = some 40 := by decide
    rw [h0] at hm
    cases hm
    decide

/-- C1 counterexample: in a fragment whose candidates carry allstar20
before rating4-t in document order, some candidate class matches the
rating pattern with digit four, yet the extractor returns two, because
the first marker-bearing candidate wins; so the claim that any matching
rating pattern forces that value is false at this fragment. -/
theorem parseRating_claim_cex :
    ¬ ((∀ n, n ≤ 5 → (∃ c ∈ candClasses cexRatingFrag,
          matchRatingNt c.data = some n) → parseRating cexRatingFrag = n) ∧
       (∀ m, m ≤ 50 → m % 10 = 0 → (∃ c ∈ candClasses cexRatingFrag,
          matchAllstar c.data = some m) → parseRating cexRatingFrag = m / 10) ∧
       ((∀ c ∈ candClasses cexRatingFrag,
          matchRatingNt c.data = none ∧ matchAllstar c.data = none) →
          parseRating cexRatingFrag = 0)) := by
  intro h
  have h4 := h.1 4 (by decide) ⟨"rating4-t", by decide, by decide⟩
  have h2 : parseRating cexRatingFrag = 2 := by decide
  rw [h2] at h4
  cases h4

/-- C1 amended: the first candidate, in document order, whose class
matches either pattern decides the result, the rating pattern being
tried before the allstar pattern on each class; when no candidate
matches, the same scan over the span descendants decides; when neither
pattern matches anywhere, the extractor returns zero. -/
theorem parseRating_first_match (f : Fragment) (v : Nat) :
    (List.findSome? markerValue (candClasses f) = some v → parseRating f = v) ∧
    (List.findSome? markerValue (candClasses f) = none →
      List.findSome? markerValue (spanClasses f) = some v → parseRating f = v) ∧
    (List.findSome? markerValue (candClasses f) = none →
      List.findSome? markerValue (spanClasses f) = none → parseRating f = 0) := by
  refine ⟨?_, ?_, ?_⟩
  · intro h
    unfold parseRating
    rw [ratingLoop_eq_findSome, h]
  · intro h1 h2
    unfold parseRating
    rw [ratingLoop_eq_findSome, h1, ratingLoop_eq_findSome, h2]
  · intro h1 h2
    unfold parseRating
    rw [ratingLoop_eq_findSome, h1, ratingLoop_eq_findSome, h2]

/-- C1 witness: on a fragment whose single candidate class is
rating4-t, the first-match rule yields four. -/
theorem parseRating_first_match_w : parseRating wRatingFrag = 4 :=
  (parseRating_first_match wRatingFrag 4).1 (by decide)

/-- C4: the source contradicts the stated skip policy. On a fragment
with no title selector match, parseMovie still returns an item, with an
empty title, the truthiness guard of the paginator cannot reject it
because an object is always truthy, and a one-page run accumulates it
into the category result. -/
theorem titleless_fragment_kept :
    (parseMovie nfrag).title = "" ∧
    parseMovieFn nfrag = some (parseMovie nfrag) ∧
    (fetchCategoryModel env4 parseMovieFn "movie").items = [parseMovie nfrag] := by
  refine ⟨rfl, rfl, by decide⟩

/-- C5 counterexample: the string 12345 contains no maximal digit run
of length exactly four, its only run has length five, so the claim
requires the year parser to return absent there; the source instead
matches the first four digits and returns 1234. -/
theorem parseYear_claim_cex :
    ¬ (hasMaxFourRun "12345" = false → parseYear "12345" = none) := by
  intro h
  have h1 : hasMaxFourRun "12345" = false := by decide
  have h2 := h h1
  have h3 : parseYear "12345" = some 1234 := by decide
  rw [h3] at h2
  cases h2

theorem win4_eq_some (cs : List Char) (w : Char × Char × Char × Char)
    (h : win4 cs = some w) :
    ∃ t, cs = w.1 :: w.2.1 :: w.2.2.1 :: w.2.2.2 :: t ∧
      (w.1.isDigit && w.2.1.isDigit && w.2.2.1.isDigit && w.2.2.2.isDigit) = true := by
  rcases cs with _ | ⟨a, _ | ⟨b, _ | ⟨c, _ | ⟨d, t⟩⟩⟩⟩
  · cases h
  · cases h
  · cases h
  · cases h
  · simp only [win4] at h
    split at h
    · cases h
      exact ⟨t, rfl, by assumption⟩
    · cases h

theorem firstWindow4_none (cs : List Char)
    (h : ∀ l r a b c d, cs = l ++ [a, b, c, d] ++ r →
      (a.isDigit && b.isDigit && c.isDigit && d.isDigit) = false) :
    firstWindow4 cs = none := by
  induction cs with
  | nil => rfl
  | cons x rest ih =>
      have hw : win4 (x :: rest) = none := by
        cases hv : win4 (x :: rest) with
        | none => rfl
        | some w =>
            rcases win4_eq_some _ _ hv with ⟨t, ht, hd⟩
            have := h [] t w.1 w.2.1 w.2.2.1 w.2.2.2 (by simpa using ht)
            rw [this] at hd
            cases hd
      simp only [firstWindow4, hw]
      apply ih
      intro l r a b c d hl
      exact h (x :: l) r a b c d (by simp [hl])

theorem firstWindow4_first (l : List Char) :
    ∀ (cs r : List Char) (a b c d : Char),
      cs = l ++ [a, b, c, d] ++ r →
      (a.isDigit && b.isDigit && c.isDigit && d.isDigit) = true →
      (∀ l2 r2 a2 b2 c2 d2, cs = l2 ++ [a2, b2, c2, d2] ++ r2 →
        (a2.isDigit && b2.isDigit && c2.isDigit && d2.isDigit) = true →
        l.length ≤ l2.length) →
      firstWindow4 cs = some (a, b, c, d) := by
  induction l with
  | nil =>
      intro cs r a b c d hcs hd _
      subst hcs
      simp [firstWindow4, win4, hd]
  | cons x l1 ih =>
      intro cs r a b c d hcs hd hmin
      subst hcs
      have hw : win4 (x :: l1 ++ [a, b, c, d] ++ r) = none := by
        cases hv : win4 (x :: l1 ++ [a, b, c, d] ++ r) with
        | none => rfl
        | some w =>
            rcases win4_eq_some _ _ hv with ⟨t, ht, hdw⟩
            have h0 := hmin [] t w.1 w.2.1 w.2.2.1 w.2.2.2 (by simpa using ht) hdw
            simp at h0
      have hstep : firstWindow4 (x :: (l1 ++ [a, b, c, d] ++ r)) =
          firstWindow4 (l1 ++ [a, b, c, d] ++ r) := by
        simp only [firstWindow4]
        rw [show win4 (x :: (l1 ++ [a, b, c, d] ++ r)) = none from hw]
      rw [show x :: l1 ++ [a, b, c, d] ++ r =
        x :: (l1 ++ [a, b, c, d] ++ r) by simp, hstep]
      apply ih (l1 ++ [a, b, c, d] ++ r) r a b c d rfl hd
      intro l2 r2 a2 b2 c2 d2 h2 hd2
      have := hmin (x :: l2) r2 a2 b2 c2 d2 (by simp [h2]) hd2
      simpa using this

/-- C5 amended: the year parser returns the number formed by the first
four consecutive digits of the text, even when that window sits inside
a longer digit run, and returns absent exactly when no four consecutive
digits occur anywhere; when several windows exist the leftmost wins. -/
theorem parseYear_first_window (s : String) :
    (∀ l r a b c d, s.data = l ++ [a, b, c, d] ++ r →
      (a.isDigit && b.isDigit && c.isDigit && d.isDigit) = true →
      (∀ l2 r2 a2 b2 c2 d2, s.data = l2 ++ [a2, b2, c2, d2] ++ r2 →
        (a2.isDigit && b2.isDigit && c2.isDigit && d2.isDigit) = true →
        l.length ≤ l2.length) →
      parseYear s =
        some (1000 * digitVal a + 100 * digitVal b + 10 * digitVal c + digitVal d)) ∧
    ((∀ l r a b c d, s.data = l ++ [a, b, c, d] ++ r →
        (a.isDigit && b.isDigit && c.isDigit && d.isDigit) = false) →
      parseYear s = none) := by
  constructor
  · intro l r a b c d hcs hd hmin
    unfold parseYear
    rw [firstWindow4_first l s.data r a b c d hcs hd hmin]
    rfl
  · intro h
    unfold parseYear
    rw [firstWindow4_none s.data h]
    rfl

/-- C5 witness: on the text 2019 the leading window is the leftmost
one, its minimality hypothesis is trivial, and the parser returns the
year 2019. -/
theorem parseYear_first_window_w : parseYear "2019" = some 2019 :=
  (parseYear_first_window "2019").1 [] [] '2' '0' '1' '9' rfl (by decide)
    (fun l2 _ _ _ _ _ _ _ => Nat.zero_le l2.length)

theorem entryProj_add (t0 t : ItemType) (e : YearEntry) (r : Nat) :
    entryProj t0 (addToEntry e t r) = entryProj t0 e + (if t = t0 then r else 0) := by
  cases t <;> cases t0 <;> simp [entryProj, addToEntry]

theorem entryProj_fresh (t0 : ItemType) (y : Nat) :
    entryProj t0 (YearEntry.mk y 0 0 0 0) = 0 := by
  cases t0 <;> rfl

theorem entrySum_nil (t0 : ItemType) : entrySum t0 [] = 0 := rfl

theorem entrySum_cons (t0 : ItemType) (e : YearEntry) (m : List YearEntry) :
    entrySum t0 (e :: m) = entryProj t0 e + entrySum t0 m := by
  simp [entrySum]

theorem entrySum_updateFirst (t0 t : ItemType) (m : List YearEntry) (y r : Nat)
    (h : (m.any fun e => e.year = y) = true) :
    entrySum t0 (updateFirst m y t r) = entrySum t0 m + (if t = t0 then r else 0) := by
  induction m with
  | nil => simp at h
  | cons e rest ih =>
      simp only [updateFirst]
      by_cases hy : e.year = y
      · rw [if_pos hy, entrySum_cons, entrySum_cons, entryProj_add]
        omega
      · rw [if_neg hy, entrySum_cons, entrySum_cons]
        have h2 : (rest.any fun e => e.year = y) = true := by
          simpa [List.any_cons, hy] using h
        rw [ih h2]
        omega

theorem entrySum_updateMap (t0 t : ItemType) (m : List YearEntry) (y r : Nat) :
    entrySum t0 (updateMap m y t r) = entrySum t0 m + (if t = t0 then r else 0) := by
  unfold updateMap
  by_cases h : (m.any fun e => e.year = y) = true
  · rw [if_pos h]
    exact entrySum_updateFirst t0 t m y r h
  · rw [if_neg h]
    simp [entrySum, entryProj_add, entryProj_fresh]

theorem entrySum_processItem (t0 t : ItemType) (m : List YearEntry) (i : Item) :
    entrySum t0 (processItem m t i) =
      entrySum t0 m + (if qualifies i = true ∧ t = t0 then i.rating else 0) := by
  unfold processItem
  rcases hy : i.year with _ | y
  · simp [qualifies, hy]
  · rcases y with _ | y1
    · simp [qualifies, hy]
    · by_cases hr : i.rating < 4
      · have h4 : ¬ 4 ≤ i.rating := by omega
        simp [hy, hr, qualifies, h4]
      · have h4 : 4 ≤ i.rating := by omega
        simp [hy, hr, qualifies, h4, entrySum_updateMap]

theorem entrySum_fold (t0 t : ItemType) (l : List Item) (m : List YearEntry) :
    entrySum t0 (l.foldl (fun m i => processItem m t i) m) =
      entrySum t0 m + (if t = t0 then qualSum l else 0) := by
  induction l generalizing m with
  | nil => simp [qualSum]
  | cons i rest ih =>
      simp only [List.foldl_cons, ih, entrySum_processItem]
      have hq : qualSum (i :: rest) =
          (if qualifies i = true then i.rating else 0) + qualSum rest := by
        simp only [qualSum, List.filter_cons]
        by_cases h : qualifies i = true
        · simp [h]
        · simp [h]
      rw [hq]
      by_cases h1 : t = t0
      · by_cases h2 : qualifies i = true
        · simp [h1, h2]
          omega
        · simp [h1, h2]
      · by_cases h2 : qualifies i = true
        · simp [h1, h2]
        · simp [h1, h2]

theorem entrySum_sort (t0 : ItemType) (m : List YearEntry) :
    entrySum t0 (sortByYear m) = entrySum t0 m := by
  unfold entrySum sortByYear
  exact ((List.perm_insertionSort _ m).map (entryProj t0)).sum_eq

/-- C3 counterexample: a movie item with the resolved year zero and a
five-star rating is skipped by the aggregation, because the source
tests the year for truthiness and zero is falsy; so the claimed
equality with the sum over all movie items having a resolved year and
rating at least four fails on this input, where that sum is five but
the aggregated total is zero. -/
theorem yearData_claim_cex :
    ¬ (entrySum ItemType.movie (fetchDoubanDataModel cexMtv emptyCat emptyCat).yearData =
        (((moviesOf cexMtv).filter fun i =>
            i.year.isSome && decide (4 ≤ i.rating)).map fun i => i.rating).sum) := by
  decide

/-- C3 amended: for every fixed input, the sum over all year entries of
the movie field equals the sum of ratings of the movie items having
rating at least four and a resolved nonzero year, and likewise for the
tv, book and music fields; each qualifying item contributes its rating
to exactly one year and category bucket, items with low rating or
without a truthy year contribute nothing. -/
theorem yearData_weighted_sum (mtv bk mu : CatRes) :
    entrySum ItemType.movie (fetchDoubanDataModel mtv bk mu).yearData =
      qualSum (moviesOf mtv) ∧
    entrySum ItemType.tv (fetchDoubanDataModel mtv bk mu).yearData =
      qualSum (tvsOf mtv) ∧
    entrySum ItemType.book (fetchDoubanDataModel mtv bk mu).yearData =
      qualSum bk.items ∧
    entrySum ItemType.music (fetchDoubanDataModel mtv bk mu).yearData =
      qualSum mu.items := by
  have hy : (fetchDoubanDataModel mtv bk mu).yearData =
      sortByYear (mu.items.foldl (fun m i => processItem m ItemType.music i)
        (bk.items.foldl (fun m i => processItem m ItemType.book i)
          ((tvsOf mtv).foldl (fun m i => processItem m ItemType.tv i)
            ((moviesOf mtv).foldl (fun m i => processItem m ItemType.movie i) [])))) := rfl
  refine ⟨?_, ?_, ?_, ?_⟩ <;>
    simp [hy, entrySum_sort, entrySum_fold, entrySum_nil]

theorem progressPages_append (t1 t2 : List Event) :
    progressPages (t1 ++ t2) = progressPages t1 ++ progressPages t2 := by
  simp [progressPages, List.filterMap_append]

theorem fetchPagesNums_append (t1 t2 : List Event) :
    fetchPagesNums (t1 ++ t2) = fetchPagesNums t1 ++ fetchPagesNums t2 := by
  simp [fetchPagesNums, List.filterMap_append]

theorem progressPages_block (c : String) (p : Nat) (ok : Bool) :
    progressPages [Event.progress c p, Event.fetchPage p ok] = [p] := rfl

theorem progressPages_block3 (c : String) (p : Nat) (ok : Bool) :
    progressPages [Event.progress c p, Event.fetchPage p ok, Event.parsedPage p] = [p] := rfl

theorem fetchPagesNums_block (c : String) (p : Nat) (ok : Bool) :
    fetchPagesNums [Event.progress c p, Event.fetchPage p ok] = [p] := rfl

theorem fetchPagesNums_block3 (c : String) (p : Nat) (ok : Bool) :
    fetchPagesNums [Event.progress c p, Event.fetchPage p ok, Event.parsedPage p] = [p] := rfl

theorem fetchLoop_zero (env : Nat → Option PageDoc) (parse : Fragment → Option Item)
    (category : String) (pc : Nat) (items : List Item) (tc : Nat)
    (trace : List Event) (nF : Nat) :
    fetchLoop env parse category 0 pc items tc trace nF = ⟨items, tc, trace, nF⟩ := rfl

theorem fetchLoop_fail (env : Nat → Option PageDoc) (parse : Fragment → Option Item)
    (category : String) (fuel pc : Nat) (items : List Item) (tc : Nat)
    (trace : List Event) (nF : Nat) (he : env pc = none) :
    fetchLoop env parse category (fuel + 1) pc items tc trace nF =
      ⟨items, tc,
        trace ++ [Event.progress category (pc + 1), Event.fetchPage (pc + 1) false],
        nF + 1⟩ := by
  simp [fetchLoop, he]

theorem fetchLoop_stopEmpty (env : Nat → Option PageDoc) (parse : Fragment → Option Item)
    (category : String) (fuel pc : Nat) (items : List Item) (tc : Nat)
    (trace : List Event) (nF : Nat) (page : PageDoc) (he : env pc = some page)
    (hemp : page.listItems.isEmpty = true) :
    fetchLoop env parse category (fuel + 1) pc items tc trace nF =
      ⟨items, tcStep pc tc page,
        trace ++ [Event.progress category (pc + 1), Event.fetchPage (pc + 1) true],
        nF + 1⟩ := by
  simp [fetchLoop, he, hemp]

theorem fetchLoop_stopLast (env : Nat → Option PageDoc) (parse : Fragment → Option Item)
    (category : String) (fuel pc : Nat) (items : List Item) (tc : Nat)
    (trace : List Event) (nF : Nat) (page : PageDoc) (he : env pc = some page)
    (hemp : page.listItems.isEmpty = false) (hnext : page.hasNext = false) :
    fetchLoop env parse category (fuel + 1) pc items tc trace nF =
      ⟨items ++ page.listItems.filterMap parse, tcStep pc tc page,
        trace ++ [Event.progress category (pc + 1), Event.fetchPage (pc + 1) true,
          Event.parsedPage (pc + 1)],
        nF + 1⟩ := by
  simp [fetchLoop, he, hemp, hnext]

theorem fetchLoop_cont (env : Nat → Option PageDoc) (parse : Fragment → Option Item)
    (category : String) (fuel pc : Nat) (items : List Item) (tc : Nat)
    (trace : List Event) (nF : Nat) (page : PageDoc) (he : env pc = some page)
    (hemp : page.listItems.isEmpty = false) (hnext : page.hasNext = true) :
    fetchLoop env parse category (fuel + 1) pc items tc trace nF =
      fetchLoop env parse category fuel (pc + 1)
        (items ++ page.listItems.filterMap parse) (tcStep pc tc page)
        (trace ++ [Event.progress category (pc + 1), Event.fetchPage (pc + 1) true,
          Event.parsedPage (pc + 1)])
        (nF + 1) := by
  simp [fetchLoop, he, hemp, hnext]

theorem fetchLoop_run (env : Nat → Option PageDoc) (parse : Fragment → Option Item)
    (category : String) :
    ∀ (fuel pc : Nat) (items : List Item) (tc : Nat) (trace : List Event) (nF : Nat),
      ∃ m, m ≤ fuel ∧
        (fetchLoop env parse category fuel pc items tc trace nF).nFetch = nF + m ∧
        (fetchLoop env parse category fuel pc items tc trace nF).items =
          items ++ pagesItems env parse pc m ∧
        progressPages (fetchLoop env parse category fuel pc items tc trace nF).trace =
          progressPages trace ++ pagesFrom pc m ∧
        fetchPagesNums (fetchLoop env parse category fuel pc items tc trace nF).trace =
          fetchPagesNums trace ++ pagesFrom pc m := by
  intro fuel
  induction fuel with
  | zero =>
      intro pc items tc trace nF
      refine ⟨0, Nat.le_refl 0, ?_, ?_, ?_, ?_⟩ <;>
        simp [fetchLoop_zero, pagesItems, pagesFrom]
  | succ fuel ih =>
      intro pc items tc trace nF
      rcases he : env pc with _ | page
      · refine ⟨1, by omega, ?_, ?_, ?_, ?_⟩
        · rw [fetchLoop_fail env parse category fuel pc items tc trace nF he]
        · rw [fetchLoop_fail env parse category fuel pc items tc trace nF he]
          simp [pagesItems, pageItems, he]
        · rw [fetchLoop_fail env parse category fuel pc items tc trace nF he]
          simp [progressPages_append, progressPages, pagesFrom]
        · rw [fetchLoop_fail env parse category fuel pc items tc trace nF he]
          simp [fetchPagesNums_append, fetchPagesNums, pagesFrom]
      · by_cases hemp : page.listItems.isEmpty
        · have hnil : page.listItems = [] := List.isEmpty_iff.mp hemp
          refine ⟨1, by omega, ?_, ?_, ?_, ?_⟩
          · rw [fetchLoop_stopEmpty env parse category fuel pc items tc trace nF page he hemp]
          · rw [fetchLoop_stopEmpty env parse category fuel pc items tc trace nF page he hemp]
            simp [pagesItems, pageItems, he, hnil]
          · rw [fetchLoop_stopEmpty env parse category fuel pc items tc trace nF page he hemp]
            simp [progressPages_append, progressPages, pagesFrom]
          · rw [fetchLoop_stopEmpty env parse category fuel pc items tc trace nF page he hemp]
            simp [fetchPagesNums_append, fetchPagesNums, pagesFrom]
        · rw [Bool.not_eq_true] at hemp
          by_cases hnext : page.hasNext
          · rcases ih (pc + 1) (items ++ page.listItems.filterMap parse)
              (tcStep pc tc page)
              (trace ++ [Event.progress category (pc + 1), Event.fetchPage (pc + 1) true,
                Event.parsedPage (pc + 1)])
              (nF + 1) with ⟨m, hm, h1, h2, h3, h4⟩
            refine ⟨m + 1, by omega, ?_, ?_, ?_, ?_⟩ <;>
              rw [fetchLoop_cont env parse category fuel pc items tc trace nF page he hemp hnext]
            · rw [h1]
              omega
            · rw [h2, List.append_assoc]
              have hp : pagesItems env parse pc (m + 1) =
                  page.listItems.filterMap parse ++ pagesItems env parse (pc + 1) m := by
                simp [pagesItems, pageItems, he]
              rw [hp]
            · rw [h3, progressPages_append]
              have hp : progressPages [Event.progress category (pc + 1),
                  Event.fetchPage (pc + 1) true, Event.parsedPage (pc + 1)] = [pc + 1] := rfl
              rw [hp, List.append_assoc]
              simp [pagesFrom]
            · rw [h4, fetchPagesNums_append]
              have hp : fetchPagesNums [Event.progress category (pc + 1),
                  Event.fetchPage (pc + 1) true, Event.parsedPage (pc + 1)] = [pc + 1] := rfl
              rw [hp, List.append_assoc]
              simp [pagesFrom]
          · rw [Bool.not_eq_true] at hnext
            refine ⟨1, by omega, ?_, ?_, ?_, ?_⟩
            · rw [fetchLoop_stopLast env parse category fuel pc items tc trace nF page he hemp hnext]
            · rw [fetchLoop_stopLast env parse category fuel pc items tc trace nF page he hemp hnext]
              simp [pagesItems, pageItems, he]
            · rw [fetchLoop_stopLast env parse category fuel pc items tc trace nF page he hemp hnext]
              simp [progressPages_append, progressPages, pagesFrom]
            · rw [fetchLoop_stopLast env parse category fuel pc items tc trace nF page he hemp hnext]
              simp [fetchPagesNums_append, fetchPagesNums, pagesFrom]

theorem pair_sublist_block (c : String) (p : Nat) (ok : Bool) :
    List.Sublist [Event.progress c p, Event.parsedPage p]
      [Event.progress c p, Event.fetchPage p ok, Event.parsedPage p] :=
  List.Sublist.cons₂ _ (List.Sublist.cons _ (List.Sublist.refl _))

theorem fetchLoop_order (env : Nat → Option PageDoc) (parse : Fragment → Option Item)
    (category : String) :
    ∀ (fuel pc : Nat) (items : List Item) (tc : Nat) (trace : List Event) (nF : Nat),
      (∀ p, Event.parsedPage p ∈ trace →
        List.Sublist [Event.progress category p, Event.parsedPage p] trace) →
      ∀ p, Event.parsedPage p ∈
          (fetchLoop env parse category fuel pc items tc trace nF).trace →
        List.Sublist [Event.progress category p, Event.parsedPage p]
          (fetchLoop env parse category fuel pc items tc trace nF).trace := by
  intro fuel
  induction fuel with
  | zero =>
      intro pc items tc trace nF hinv p hp
      rw [fetchLoop_zero] at hp ⊢
      exact hinv p hp
  | succ fuel ih =>
      intro pc items tc trace nF hinv p hp
      rcases he : env pc with _ | page
      · rw [fetchLoop_fail env parse category fuel pc items tc trace nF he] at hp ⊢
        simp only [List.mem_append] at hp
        rcases hp with hp | hp
        · exact (hinv p hp).trans (List.sublist_append_left _ _)
        · simp at hp
      · by_cases hemp : page.listItems.isEmpty
        · rw [fetchLoop_stopEmpty env parse category fuel pc items tc trace nF page he hemp]
            at hp ⊢
          simp only [List.mem_append] at hp
          rcases hp with hp | hp
          · exact (hinv p hp).trans (List.sublist_append_left _ _)
          · simp at hp
        · rw [Bool.not_eq_true] at hemp
          have hinv2 : ∀ q, Event.parsedPage q ∈
              (trace ++ [Event.progress category (pc + 1), Event.fetchPage (pc + 1) true,
                Event.parsedPage (pc + 1)]) →
              List.Sublist [Event.progress category q, Event.parsedPage q]
                (trace ++ [Event.progress category (pc + 1), Event.fetchPage (pc + 1) true,
                  Event.parsedPage (pc + 1)]) := by
            intro q hq
            simp only [List.mem_append] at hq
            rcases hq with hq | hq
            · exact (hinv q hq).trans (List.sublist_append_left _ _)
            · have hq2 : q = pc + 1 := by simpa using hq
              subst hq2
              exact (pair_sublist_block category (pc + 1) true).trans
                (List.sublist_append_right _ _)
          by_cases hnext : page.hasNext
          · rw [fetchLoop_cont env parse category fuel pc items tc trace nF page he hemp hnext]
              at hp ⊢
            exact ih (pc + 1) (items ++ page.listItems.filterMap parse)
              (tcStep pc tc page) _ (nF + 1) hinv2 p hp
          · rw [Bool.not_eq_true] at hnext
            rw [fetchLoop_stopLast env parse category fuel pc items tc trace nF page he hemp hnext]
              at hp ⊢
            exact hinv2 p hp

/-- C7: for every environment of pages and every parse function, the
paginator performs at most twenty fetch cycles, it terminates by
construction since it is a total function, and on every terminal stop
condition the returned category result holds exactly the items
accumulated from the pages fetched so far, with no error path. -/
theorem fetchCategory_cap (env : Nat → Option PageDoc)
    (parse : Fragment → Option Item) (category : String) :
    (fetchCategoryModel env parse category).nFetch ≤ 20 ∧
    (fetchCategoryModel env parse category).items =
      pagesItems env parse 0 (fetchCategoryModel env parse category).nFetch := by
  rcases fetchLoop_run env parse category 20 0 [] 0 [] 0 with ⟨m, hm, h1, h2, _, _⟩
  have hitems : (fetchCategoryModel env parse category).items =
      (fetchLoop env parse category 20 0 [] 0 [] 0).items := rfl
  have hn : (fetchCategoryModel env parse category).nFetch =
      (fetchLoop env parse category 20 0 [] 0 [] 0).nFetch := rfl
  constructor
  · rw [hn, h1]
    omega
  · rw [hn, hitems, h1, h2]
    simp

/-- C9: in one paginator run the progress callback fires exactly once
per fetch cycle, with the page numbers one, two, three and so on in
order, the fetch events carry the same page numbers in the same order,
so the callback fires for a page exactly when that page is fetched and
before its parsing, and whenever a page finishes parsing the progress
event for that page occurs earlier in the trace. -/
theorem fetchCategory_progress (env : Nat → Option PageDoc)
    (parse : Fragment → Option Item) (category : String) :
    progressPages (fetchCategoryModel env parse category).trace =
      pagesFrom 0 (fetchCategoryModel env parse category).nFetch ∧
    fetchPagesNums (fetchCategoryModel env parse category).trace =
      pagesFrom 0 (fetchCategoryModel env parse category).nFetch ∧
    ∀ p, Event.parsedPage p ∈ (fetchCategoryModel env parse category).trace →
      List.Sublist [Event.progress category p, Event.parsedPage p]
        (fetchCategoryModel env parse category).trace := by
  rcases fetchLoop_run env parse category 20 0 [] 0 [] 0 with ⟨m, _, h1, _, h3, h4⟩
  have htr : (fetchCategoryModel env parse category).trace =
      (fetchLoop env parse category 20 0 [] 0 [] 0).trace := rfl
  have hn : (fetchCategoryModel env parse category).nFetch =
      (fetchLoop env parse category 20 0 [] 0 [] 0).nFetch := rfl
  refine ⟨?_, ?_, ?_⟩
  · rw [htr, hn, h1, h3]
    simp [progressPages]
  · rw [htr, hn, h1, h4]
    simp [fetchPagesNums]
  · intro p hp
    rw [htr] at hp ⊢
    exact fetchLoop_order env parse category 20 0 [] 0 [] 0 (by simp) p hp

/-- C9 witness: on a one-page environment the progress event for page
one precedes the parse completion event for page one in the trace. -/
theorem fetchCategory_progress_w :
    List.Sublist [Event.progress "movie" 1, Event.parsedPage 1]
      (fetchCategoryModel env4 parseMovieFn "movie").trace :=
  (fetchCategory_progress env4 parseMovieFn "movie").2.2 1 (by decide)

theorem fetchLoop_tc_stable (env : Nat → Option PageDoc)
    (parse : Fragment → Option Item) (category : String) :
    ∀ (fuel pc : Nat) (items : List Item) (tc : Nat) (trace : List Event) (nF : Nat),
      1 ≤ pc →
      (fetchLoop env parse category fuel pc items tc trace nF).totalCount = tc := by
  intro fuel
  induction fuel with
  | zero =>
      intro pc items tc trace nF _
      rw [fetchLoop_zero]
  | succ fuel ih =>
      intro pc items tc trace nF hpc
      have hpc0 : pc ≠ 0 := by omega
      rcases he : env pc with _ | page
      · rw [fetchLoop_fail env parse category fuel pc items tc trace nF he]
      · have hstep : tcStep pc tc page = tc := by simp [tcStep, hpc0]
        by_cases hemp : page.listItems.isEmpty
        · rw [fetchLoop_stopEmpty env parse category fuel pc items tc trace nF page he hemp]
          exact hstep
        · rw [Bool.not_eq_true] at hemp
          by_cases hnext : page.hasNext
          · rw [fetchLoop_cont env parse category fuel pc items tc trace nF page he hemp hnext,
              hstep]
            exact ih (pc + 1) _ tc _ (nF + 1) (by omega)
          · rw [Bool.not_eq_true] at hnext
            rw [fetchLoop_stopLast env parse category fuel pc items tc trace nF page he hemp
              hnext]
            exact hstep

theorem fetchCategory_totalCount (env : Nat → Option PageDoc)
    (parse : Fragment → Option Item) (category : String) (page : PageDoc) (t : Nat)
    (he : env 0 = some page) (hf : findParenInt page.titleText.data = some t)
    (ht : 0 < t) :
    (fetchCategoryModel env parse category).totalCount = t := by
  have hstep : tcStep 0 0 page = t := by simp [tcStep, hf]
  have hinner : (fetchLoop env parse category 20 0 ([] : List Item) 0
      ([] : List Event) 0).totalCount = t := by
    rw [show (20 : Nat) = 19 + 1 from rfl]
    by_cases hemp : page.listItems.isEmpty
    · rw [fetchLoop_stopEmpty env parse category 19 0 [] 0 [] 0 page he hemp]
      exact hstep
    · rw [Bool.not_eq_true] at hemp
      by_cases hnext : page.hasNext
      · rw [fetchLoop_cont env parse category 19 0 [] 0 [] 0 page he hemp hnext, hstep]
        exact fetchLoop_tc_stable env parse category 19 1 _ t _ 1 (by omega)
      · rw [Bool.not_eq_true] at hnext
        rw [fetchLoop_stopLast env parse category 19 0 [] 0 [] 0 page he hemp hnext]
        exact hstep
  have ht0 : t ≠ 0 := by omega
  show (if (fetchLoop env parse category 20 0 [] 0 [] 0).totalCount = 0 then
      (fetchLoop env parse category 20 0 [] 0 [] 0).items.length
    else (fetchLoop env parse category 20 0 [] 0 [] 0).totalCount) = t
  rw [hinner]
  simp [ht0]

/-- C10: in the final summary the movie and tv totals are the counts of
fetched items classified into each sub-category, so the combined count
parsed from the page title plays no part in the movie and tv split,
while the book and music totals take the category total, which equals
the parsed origin total whenever the first page carries a positive
parenthesized count in its title, and fall back to the fetched count
otherwise. -/
theorem summary_totals (mtv bk mu : CatRes) :
    (fetchDoubanDataModel mtv bk mu).movieS.total = (moviesOf mtv).length ∧
    (fetchDoubanDataModel mtv bk mu).tvS.total = (tvsOf mtv).length ∧
    (fetchDoubanDataModel mtv bk mu).bookS.total =
      (if 0 < bk.totalCount then bk.totalCount else bk.items.length) ∧
    (fetchDoubanDataModel mtv bk mu).musicS.total =
      (if 0 < mu.totalCount then mu.totalCount else mu.items.length) ∧
    (∀ (env : Nat → Option PageDoc) (parse : Fragment → Option Item)
        (category : String) (page : PageDoc) (t : Nat),
      env 0 = some page → findParenInt page.titleText.data = some t → 0 < t →
        (fetchCategoryModel env parse category).totalCount = t) := by
  refine ⟨?_, ?_, ?_, ?_, ?_⟩
  · show (computeStats (moviesOf mtv) (moviesOf mtv).length).total = (moviesOf mtv).length
    simp [computeStats]
  · show (computeStats (tvsOf mtv) (tvsOf mtv).length).total = (tvsOf mtv).length
    simp [computeStats]
  · show (computeStats bk.items bk.totalCount).total =
      if 0 < bk.totalCount then bk.totalCount else bk.items.length
    simp only [computeStats]
    rcases Nat.eq_zero_or_pos bk.totalCount with h | h
    · simp [h]
    · simp [h, Nat.pos_iff_ne_zero.mp h]
  · show (computeStats mu.items mu.totalCount).total =
      if 0 < mu.totalCount then mu.totalCount else mu.items.length
    simp only [computeStats]
    rcases Nat.eq_zero_or_pos mu.totalCount with h | h
    · simp [h]
    · simp [h, Nat.pos_iff_ne_zero.mp h]
  · intro env parse category page t he hf ht
    exact fetchCategory_totalCount env parse category page t he hf ht

/-- C10 witness: a run over a one-page environment whose title carries
the parenthesized count 37 reports 37 as the category total. -/
theorem summary_totals_w :
    (fetchCategoryModel envW37 parseMovieFn "movie").totalCount = 37 :=
  (summary_totals emptyCat emptyCat emptyCat).2.2.2.2 envW37 parseMovieFn "movie"
    (PageDoc.mk "x (37)" [nfrag] false) 37 rfl (by decide) (by decide)

end DBAnalyzer
